import Mathlib

/-!
Verification development for the Loki log-query core of the
openshift-ai-observability-summarizer repository.

The Python sources under `src/src/mcp_server/tools/loki/` and
`src/src/core/logql_service.py` are shallowly embedded below:
pure string/list manipulation becomes Lean functions over `String` /
`List Char`, the HTTP round trip of `query_logs` becomes a function of an
explicit outcome value, and Python exceptions become `Except`/`Option`.
Python's `str.lower` is modelled with per-character ASCII lowering (the
inputs of interest are ASCII), `str.strip` truthiness with an
all-whitespace test, and `dict` field access with association lists (last
binding wins, as in `json.loads`).  String primitives are implemented over
`String.data` so every definition evaluates by kernel reduction.
-/

namespace Loki

/-- Characters of a string; Python code treats strings as char sequences. -/
def chars (s : String) : List Char := s.data

/-- Python `str.lower` (ASCII fragment). -/
def strLower (s : String) : String := String.mk (s.data.map Char.toLower)

/-- Python `str.strip()` with default whitespace set. -/
def pyStrip (s : String) : String :=
  String.mk (((s.data.dropWhile Char.isWhitespace).reverse.dropWhile Char.isWhitespace).reverse)

/-- Python `str.startswith`. -/
def strStartsWith (s pre : String) : Bool := pre.data.isPrefixOf s.data

/-- Python `str.endswith`. -/
def strEndsWith (s suf : String) : Bool := suf.data.reverse.isPrefixOf s.data.reverse

/-- Python `\w` word character (ASCII fragment): letters, digits, underscore. -/
def isWordChar (c : Char) : Bool := c.isAlphanum || c == '_'

/-- Boolean substring test on char lists: models Python's `pat in s`. -/
def containsList (pat : List Char) : List Char → Bool
  | [] => pat.isEmpty
  | c :: cs => pat.isPrefixOf (c :: cs) || containsList pat cs

/-- Models Python's `pat in s` membership test on strings. -/
def strContains (s pat : String) : Bool := containsList pat.data s.data

/-- Models Python's `any(w in s for w in ws)`. -/
def hasAny (s : String) (ws : List String) : Bool := ws.any (fun w => strContains s w)

/-- Python truthiness of `q.strip()`: false iff every character is whitespace. -/
def isBlank (s : String) : Bool := s.data.all Char.isWhitespace

/- ### Error classification (`error_handling.py`, `LokiErrorType` / `LokiErrorClassifier`) -/

/-- `LokiErrorType` enum from `error_handling.py`. -/
inductive LokiErrorType where
  | connection_refused
  | dns_resolution_failed
  | http_error
  | timeout
  | authentication_failed
  | service_unavailable
  | query_syntax_error
  | rate_limited
  | unknown
  deriving DecidableEq, Repr

/-- `LokiErrorClassifier.ERROR_PATTERNS`: the ordered category → phrase table
(Python dicts preserve insertion order). -/
def ERROR_PATTERNS : List (LokiErrorType × List String) :=
  [ (.connection_refused,
      ["connection refused", "connection reset", "no route to host"]),
    (.dns_resolution_failed,
      ["name or service not known", "nodename nor servname provided",
       "temporary failure in name resolution", "no address associated with hostname"]),
    (.http_error,
      ["http 4", "http 5", "bad request", "internal server error"]),
    (.timeout,
      ["timeout", "timed out", "deadline exceeded"]),
    (.authentication_failed,
      ["unauthorized", "authentication failed", "invalid credentials", "access denied"]),
    (.service_unavailable,
      ["service unavailable", "bad gateway", "gateway timeout"]),
    (.query_syntax_error,
      ["parse error", "syntax error", "invalid query", "bad logql"]),
    (.rate_limited,
      ["rate limit", "too many requests", "quota exceeded"]) ]

/-- `LokiErrorClassifier.classify_error`: first table entry with any matching
phrase (substring of the lower-cased message) wins, else `unknown`. -/
def classify_error (error_message : String) : LokiErrorType :=
  match ERROR_PATTERNS.find? (fun p => p.2.any (fun pat => strContains (strLower error_message) pat)) with
  | some p => p.1
  | none => .unknown

/-- `LokiErrorClassifier.get_user_friendly_message`: one fixed message per
category, built from the category and the Loki URL by f-string concatenation. -/
def get_user_friendly_message (error_type : LokiErrorType) (loki_url : String) : String :=
  match error_type with
  | .connection_refused =>
      "Loki service refused connection at " ++ loki_url ++
      ". Check if Loki is running in the observability-hub namespace."
  | .dns_resolution_failed =>
      "Loki service not reachable at " ++ loki_url ++
      ". This is expected when running locally. Deploy to OpenShift to access Loki."
  | .http_error =>
      "HTTP error accessing Loki at " ++ loki_url ++
      ". Check if the service is properly configured."
  | .timeout =>
      "Request to Loki timed out at " ++ loki_url ++
      ". The service may be overloaded or unreachable."
  | .authentication_failed =>
      "Authentication failed when accessing Loki at " ++ loki_url ++
      ". Check your credentials."
  | .service_unavailable =>
      "Loki service is temporarily unavailable at " ++ loki_url ++
      ". Please try again later."
  | .query_syntax_error =>
      "LogQL query syntax error. Check your query syntax and try again."
  | .rate_limited =>
      "Rate limit exceeded for Loki at " ++ loki_url ++
      ". Please reduce query frequency."
  | .unknown =>
      "Unexpected error accessing Loki at " ++ loki_url

/- ### Log pattern detection (`error_handling.py`, `LogPatternDetector`) -/

/-- `LogPatternDetector.is_error_log`, on a log-entry dict holding optional
string fields `level`, `message`, `log` (absent key ↦ `none`; Python's
`dict.get(k, d)` is `Option.getD`). -/
def is_error_log (level message log : Option String) : Bool :=
  if (strLower (level.getD "")) ∈ ["error", "fatal", "critical"] then
    true
  else
    let msg := strLower (message.getD (log.getD ""))
    ["error", "failed", "failure", "exception", "panic",
     "fatal", "critical", "crashed", "abort"].any (fun pattern => strContains msg pattern)

/-- `LogPatternDetector.is_warning_log`, same dict encoding as `is_error_log`. -/
def is_warning_log (level message log : Option String) : Bool :=
  if (strLower (level.getD "")) ∈ ["warning", "warn"] then
    true
  else
    let msg := strLower (message.getD (log.getD ""))
    ["warning", "warn", "deprecated", "slow", "retry"].any (fun pattern => strContains msg pattern)

/- ### LogQL planner (`logql_service.py`, `generate_logql_from_question`) -/

/-- Decimal value of a digit string, as Python `int(...)` computes it on the
digits captured by `(\d+)`. -/
def digitsToNat (ds : List Char) : Nat :=
  ds.foldl (fun acc c => acc * 10 + (c.toNat - 48)) 0

/-- Match of the pattern `kw\s+(\w+)` anchored at the head of `l`
(e.g. `service\s+(\w+)`): the keyword literal, one or more whitespace
characters, then the captured maximal word-character run. -/
def matchKwWordAt (kw : List Char) (l : List Char) : Option (List Char) :=
  if kw.isPrefixOf l then
    let r1 := l.drop kw.length
    if (r1.takeWhile Char.isWhitespace).isEmpty then none
    else
      let r2 := r1.dropWhile Char.isWhitespace
      let w := r2.takeWhile isWordChar
      if w.isEmpty then none else some w
  else none

/-- Match of the pattern `(\w+)\s+kw` anchored at the head of `l`
(e.g. `(\w+)\s+service`): a captured maximal word run, one or more
whitespace characters, then the keyword literal. -/
def matchWordKwAt (kw : List Char) (l : List Char) : Option (List Char) :=
  let w := l.takeWhile isWordChar
  if w.isEmpty then none
  else
    let r1 := l.dropWhile isWordChar
    if (r1.takeWhile Char.isWhitespace).isEmpty then none
    else if kw.isPrefixOf (r1.dropWhile Char.isWhitespace) then some w
    else none

/-- Leftmost match of an anchored matcher: models `re.search`, which tries
every start position from the left. -/
def searchWith (m : List Char → Option (List Char)) : List Char → Option (List Char)
  | [] => m []
  | c :: t =>
    match m (c :: t) with
    | some r => some r
    | none => searchWith m t

/-- The service-name extraction of the service/pod/container branch:
the four patterns `service\s+(\w+)`, `(\w+)\s+service`, `pod\s+(\w+)`,
`container\s+(\w+)` tried in order, first `re.search` hit wins. -/
def extractServiceName (q : List Char) : Option (List Char) :=
  match searchWith (matchKwWordAt "service".data) q with
  | some w => some w
  | none =>
    match searchWith (matchWordKwAt "service".data) q with
    | some w => some w
    | none =>
      match searchWith (matchKwWordAt "pod".data) q with
      | some w => some w
      | none => searchWith (matchKwWordAt "container".data) q

/-- Match of `last\s+(\d+)\s*(minute|hour|day)` anchored at the head of `l`:
literal `last`, whitespace run (≥ 1), maximal digit run (≥ 1), optional
whitespace, then one of the three unit literals (alternation order as in the
source pattern). -/
def matchTimeAt (l : List Char) : Option (Nat × String) :=
  if "last".data.isPrefixOf l then
    let r1 := l.drop 4
    if (r1.takeWhile Char.isWhitespace).isEmpty then none
    else
      let r2 := r1.dropWhile Char.isWhitespace
      let ds := r2.takeWhile Char.isDigit
      if ds.isEmpty then none
      else
        let r4 := (r2.dropWhile Char.isDigit).dropWhile Char.isWhitespace
        if "minute".data.isPrefixOf r4 then some (digitsToNat ds, "minute")
        else if "hour".data.isPrefixOf r4 then some (digitsToNat ds, "hour")
        else if "day".data.isPrefixOf r4 then some (digitsToNat ds, "day")
        else none
  else none

/-- `re.search(r'last\s+(\d+)\s*(minute|hour|day)', q)`: leftmost match. -/
def searchTime : List Char → Option (Nat × String)
  | [] => matchTimeAt []
  | c :: t =>
    match matchTimeAt (c :: t) with
    | some r => some r
    | none => searchTime t

/-- The duration string built from the captured `(amount, unit)` pair. -/
def durOf (amount : Nat) (unit : String) : String :=
  if unit = "minute" then toString amount ++ "m"
  else if unit = "hour" then toString amount ++ "h"
  else toString (amount * 24) ++ "h"

/-- Smart interval selection based on the time range; the Python float
division `duration_seconds / 3600` compared against 1/6/24 agrees with these
exact integer comparisons for every time range a timestamp pair can yield. -/
def rateInterval (start_ts end_ts : Int) : String :=
  let duration_seconds := end_ts - start_ts
  if duration_seconds ≤ 3600 then "5m"
  else if duration_seconds ≤ 21600 then "15m"
  else if duration_seconds ≤ 86400 then "1h"
  else "6h"

/-- Python truthiness of `not namespace`: `None` or the empty string. -/
def nsFalsy (namespace_ : Option String) : Bool :=
  match namespace_ with
  | none => true
  | some s => s = ""

/-- The base label selector for the question's scope. -/
def baseSelector (namespace_ : Option String) (is_fleet_wide : Bool) : String :=
  if is_fleet_wide || nsFalsy namespace_ then "\x7bjob=\"application\"\x7d"
  else "\x7bnamespace=\"" ++ namespace_.getD "" ++ "\"\x7d"

/-- The extra namespace filter used by the service/pod/container branch. -/
def namespaceFilter (namespace_ : Option String) (is_fleet_wide : Bool) : String :=
  if is_fleet_wide || nsFalsy namespace_ then ""
  else ", namespace=\"" ++ namespace_.getD "" ++ "\""

def errorWords : List String :=
  ["error", "errors", "failed", "failure", "exception", "panic", "fatal", "critical"]
def warningWords : List String := ["warning", "warn", "warnings"]
def perfWords : List String := ["slow", "performance", "latency", "response time", "timeout"]
def httpWords : List String := ["http", "api", "request", "response", "status", "endpoint"]
def authWords : List String :=
  ["auth", "authentication", "login", "logout", "security", "unauthorized", "forbidden"]
def dbWords : List String := ["database", "db", "sql", "query", "connection"]
def lifecycleWords : List String := ["startup", "start", "boot", "shutdown", "restart", "deploy"]
def serviceWords : List String := ["service", "pod", "container"]
def volumeWords : List String := ["volume", "count", "frequency", "rate", "how many", "total"]

/-- The if/elif topic chain of `generate_logql_from_question`, producing the
branch queries before the trailing time-phrase step.  `q` is the lower-cased
question, `base` the base selector, `nsF` the namespace filter, `rInt` the
smart rate interval. -/
def branchQueries (q base nsF rInt : String) : List String :=
  if hasAny q errorWords then
    [ base ++ " |~ \"(?i)(error|failed|failure|exception|panic|fatal|critical)\"",
      base ++ " | json | level=\"error\"",
      base ++ " | logfmt | level=\"error\"" ]
    ++ (if strContains q "database" || strContains q "db" then
          [base ++ " |~ \"(?i)(database|db|sql).*error\""] else [])
    ++ (if strContains q "connection" then
          [base ++ " |~ \"(?i)connection.*(error|failed|refused|timeout)\""] else [])
    ++ (if strContains q "timeout" then
          [base ++ " |~ \"(?i)timeout\""] else [])
    ++ (if strContains q "authentication" || strContains q "auth" then
          [base ++ " |~ \"(?i)(auth|authentication).*(error|failed|denied)\""] else [])
  else if hasAny q warningWords then
    [ base ++ " | json | level=\"warning\"",
      base ++ " | logfmt | level=\"warn\"",
      base ++ " |~ \"(?i)(warning|warn)\"" ]
  else if hasAny q perfWords then
    [ base ++ " |~ \"(?i)(slow|latency|timeout|took.*ms|took.*seconds)\"",
      base ++ " | json | duration > 1000",
      base ++ " |~ \"response_time|response.*ms\"" ]
  else if hasAny q httpWords then
    if strContains q "500" || strContains q "server error" then
      [base ++ " |~ \"(?i)(status.*5[0-9][0-9]|500|502|503|504)\""]
    else if strContains q "400" || strContains q "client error" then
      [base ++ " |~ \"(?i)(status.*4[0-9][0-9]|400|401|403|404)\""]
    else
      [ base ++ " | json | status_code >= 400",
        base ++ " |~ \"(?i)(GET|POST|PUT|DELETE|PATCH).*HTTP\"",
        base ++ " |~ \"status.*[4-5][0-9][0-9]\"" ]
  else if hasAny q authWords then
    [ base ++ " |~ \"(?i)(auth|authentication|login|logout|security)\"",
      base ++ " |~ \"(?i)(unauthorized|forbidden|denied|invalid.*token)\"",
      base ++ " | json | user != \"\"" ]
  else if hasAny q dbWords then
    [ base ++ " |~ \"(?i)(database|db|sql|mysql|postgres|mongodb)\"",
      base ++ " |~ \"(?i)(connection.*pool|query.*time|transaction)\"" ]
  else if hasAny q lifecycleWords then
    [ base ++ " |~ \"(?i)(starting|started|startup|boot|ready|listening)\"",
      base ++ " |~ \"(?i)(shutdown|stopping|stopped|graceful)\"",
      base ++ " |~ \"(?i)(deploy|deployment|version|build)\"" ]
  else if hasAny q serviceWords then
    match extractServiceName q.data with
    | some w =>
      let service_name := String.mk w
      [ "\x7bservice_name=\"" ++ service_name ++ "\"" ++ nsF ++ "\x7d",
        "\x7bapp=\"" ++ service_name ++ "\"" ++ nsF ++ "\x7d",
        "\x7bcontainer=\"" ++ service_name ++ "\"" ++ nsF ++ "\x7d" ]
    | none => [base]
  else if hasAny q volumeWords then
    [ "sum by (namespace) (count_over_time(" ++ base ++ "[" ++ rInt ++ "]))",
      "sum by (level) (count_over_time(" ++ base ++ "[" ++ rInt ++ "]))",
      "sum by (service_name) (count_over_time(" ++ base ++ "[" ++ rInt ++ "]))" ]
  else
    [ base,
      base ++ " | json | level != \"debug\"",
      base ++ " | logfmt | level != \"debug\"" ]

/-- The trailing always-evaluated time-phrase step: when the question contains
`last` together with a unit word and the regex matches, one rate query over
the extracted duration is appended. -/
def timeQueries (q base : String) : List String :=
  if strContains q "last" && hasAny q ["minute", "hour", "day"] then
    match searchTime q.data with
    | some (amount, unit) => ["rate(" ++ base ++ "[" ++ durOf amount unit ++ "])"]
    | none => []
  else []

/-- Final post-processing `list(dict.fromkeys([q for q in queries if q.strip()]))`:
drop blank queries, then deduplicate keeping the first occurrence. -/
def dedupFirstAux (seen : List String) : List String → List String
  | [] => []
  | q :: qs =>
    if q ∈ seen then dedupFirstAux seen qs
    else q :: dedupFirstAux (q :: seen) qs

def postprocess (queries : List String) : List String :=
  dedupFirstAux [] (queries.filter (fun q => !isBlank q))

/-- `generate_logql_from_question` from `logql_service.py`. -/
def generate_logql_from_question (question : String) (namespace_ : Option String)
    (start_ts end_ts : Int) (is_fleet_wide : Bool) : List String :=
  let question_lower := strLower question
  let base := baseSelector namespace_ is_fleet_wide
  let nsF := namespaceFilter namespace_ is_fleet_wide
  let rInt := rateInterval start_ts end_ts
  postprocess (branchQueries question_lower base nsF rInt ++ timeQueries question_lower base)

/- ### JSON values and a model of Python's `json.loads`
(`query_tool.py` parses structured log lines with `json.loads`; the model
below implements the JSON grammar — objects, arrays, strings with escapes,
numeric literals kept as lexemes, `true`/`false`/`null` — and fails on
anything else, as `json.loads` raises `JSONDecodeError`.  `\uXXXX` escapes
are decoded without surrogate pairing; none of the inputs below use them.) -/

inductive JVal where
  | null
  | bool (b : Bool)
  | num (lexeme : String)
  | str (s : String)
  | arr (elems : List JVal)
  | obj (fields : List (String × JVal))

/-- JSON insignificant whitespace. -/
def isJsonWs (c : Char) : Bool := c == ' ' || c == '\t' || c == '\n' || c == '\r'

def skipWs (l : List Char) : List Char := l.dropWhile isJsonWs

def hexVal (c : Char) : Option Nat :=
  if c.isDigit then some (c.toNat - 48)
  else if 'a' ≤ c ∧ c ≤ 'f' then some (c.toNat - 87)
  else if 'A' ≤ c ∧ c ≤ 'F' then some (c.toNat - 55)
  else none

/-- JSON string body after the opening quote; returns content and the rest.
Fuel-driven; every recursive call consumes at least one input character, so
`l.length + 1` fuel is always enough. -/
def parseJStr (fuel : Nat) (l : List Char) : Option (List Char × List Char) :=
  match fuel with
  | 0 => none
  | fuel + 1 =>
    match l with
    | [] => none
    | c :: t =>
      if c == '"' then some ([], t)
      else if c == '\\' then
        match t with
        | [] => none
        | e :: t2 =>
          let esc : Option (Char × List Char) :=
            if e == '"' then some ('"', t2)
            else if e == '\\' then some ('\\', t2)
            else if e == '/' then some ('/', t2)
            else if e == 'b' then some ('\x08', t2)
            else if e == 'f' then some ('\x0c', t2)
            else if e == 'n' then some ('\n', t2)
            else if e == 'r' then some ('\r', t2)
            else if e == 't' then some ('\t', t2)
            else if e == 'u' then
              match t2 with
              | a :: b :: c2 :: d :: t3 =>
                match hexVal a, hexVal b, hexVal c2, hexVal d with
                | some x, some y, some z, some w =>
                  some (Char.ofNat (((x * 16 + y) * 16 + z) * 16 + w), t3)
                | _, _, _, _ => none
              | _ => none
            else none
          match esc with
          | some (ch, rest) =>
            match parseJStr fuel rest with
            | some (s, r) => some (ch :: s, r)
            | none => none
          | none => none
      else if c.toNat < 32 then none
      else
        match parseJStr fuel t with
        | some (s, r) => some (c :: s, r)
        | none => none

/-- JSON numeric literal `-?(0|[1-9][0-9]*)(\.[0-9]+)?([eE][+-]?[0-9]+)?`,
returned as its lexeme. -/
def parseJNum (l : List Char) : Option (List Char × List Char) :=
  let (neg, l1) := match l with
    | '-' :: r => (['-'], r)
    | r => (([] : List Char), r)
  match l1 with
  | [] => none
  | c :: _ =>
    if !c.isDigit then none
    else if c == '0' ∧ (l1.drop 1).head?.any Char.isDigit then none
    else
      let ip := l1.takeWhile Char.isDigit
      let r1 := l1.dropWhile Char.isDigit
      let (fp, r2) : List Char × List Char :=
        match r1 with
        | '.' :: r =>
          let ds := r.takeWhile Char.isDigit
          if ds.isEmpty then (['!'], r1) else ('.' :: ds, r.dropWhile Char.isDigit)
        | _ => ([], r1)
      if fp = ['!'] then none
      else
        let (ep, r3) : List Char × List Char :=
          match r2 with
          | e :: r =>
            if e == 'e' || e == 'E' then
              let (sgn, r4) : List Char × List Char :=
                match r with
                | s :: r5 => if s == '+' || s == '-' then ([s], r5) else ([], r)
                | [] => ([], r)
              let ds := r4.takeWhile Char.isDigit
              if ds.isEmpty then (['!'], r2) else (e :: (sgn ++ ds), r4.dropWhile Char.isDigit)
            else ([], r2)
          | [] => ([], r2)
        if ep = ['!'] then none
        else some (neg ++ ip ++ fp ++ ep, r3)

mutual

/-- One JSON value at the head of the input (leading whitespace skipped). -/
def parseJVal (fuel : Nat) (l : List Char) : Option (JVal × List Char) :=
  match fuel with
  | 0 => none
  | fuel + 1 =>
    match skipWs l with
    | [] => none
    | c :: t =>
      if c == '"' then
        match parseJStr (t.length + 1) t with
        | some (s, r) => some (.str (String.mk s), r)
        | none => none
      else if c == '\x7b' then
        match skipWs t with
        | '\x7d' :: r => some (.obj [], r)
        | r2 => parseJObjMembers fuel r2 []
      else if c == '[' then
        match skipWs t with
        | ']' :: r => some (.arr [], r)
        | r2 => parseJArrElems fuel r2 []
      else if c == 't' then
        if "rue".data.isPrefixOf t then some (.bool true, t.drop 3) else none
      else if c == 'f' then
        if "alse".data.isPrefixOf t then some (.bool false, t.drop 4) else none
      else if c == 'n' then
        if "ull".data.isPrefixOf t then some (.null, t.drop 3) else none
      else
        match parseJNum (c :: t) with
        | some (lex, r) => some (.num (String.mk lex), r)
        | none => none

/-- Object members `"key": value (, "key": value)*` followed by the brace. -/
def parseJObjMembers (fuel : Nat) (l : List Char) (acc : List (String × JVal)) :
    Option (JVal × List Char) :=
  match fuel with
  | 0 => none
  | fuel + 1 =>
    match skipWs l with
    | '"' :: t =>
      match parseJStr (t.length + 1) t with
      | some (k, r1) =>
        match skipWs r1 with
        | ':' :: r2 =>
          match parseJVal fuel r2 with
          | some (v, r3) =>
            match skipWs r3 with
            | ',' :: r4 => parseJObjMembers fuel r4 (acc ++ [(String.mk k, v)])
            | '\x7d' :: r4 => some (.obj (acc ++ [(String.mk k, v)]), r4)
            | _ => none
          | none => none
        | _ => none
      | none => none
    | _ => none

/-- Array elements `value (, value)*` followed by the bracket. -/
def parseJArrElems (fuel : Nat) (l : List Char) (acc : List JVal) :
    Option (JVal × List Char) :=
  match fuel with
  | 0 => none
  | fuel + 1 =>
    match parseJVal fuel l with
    | some (v, r1) =>
      match skipWs r1 with
      | ',' :: r2 => parseJArrElems fuel r2 (acc ++ [v])
      | ']' :: r2 => some (.arr (acc ++ [v]), r2)
      | _ => none
    | none => none

end

/-- Model of Python `json.loads`: parse one JSON document, requiring the whole
input to be consumed (up to trailing whitespace).  Python additionally accepts
the non-standard `NaN`/`Infinity` literals by default; those are not modelled
(no input below uses them). -/
def jsonLoads (s : String) : Option JVal :=
  match parseJVal (s.length + 1) s.data with
  | some (v, rest) => if (skipWs rest).isEmpty then some v else none
  | none => none

/-- Python `dict.get` on the dict produced by `json.loads`: with duplicate
keys the last binding wins. -/
def pyGet (fields : List (String × JVal)) (k : String) : Option JVal :=
  (fields.reverse.find? (fun p => p.1 == k)).map (fun p => p.2)

def objFields : JVal → List (String × JVal)
  | .obj fs => fs
  | _ => []

/- ### Log entry parsing (`query_tool.py`, `LokiQueryTool._parse_log_entries`) -/

/-- The alternatives of `\b(DEBUG|INFO|WARN|WARNING|ERROR|FATAL|CRITICAL)\b`,
in the pattern's order. -/
def levelAlternatives : List String :=
  ["DEBUG", "INFO", "WARN", "WARNING", "ERROR", "FATAL", "CRITICAL"]

/-- ASCII case-insensitive prefix test, for `re.IGNORECASE` literal matching. -/
def ciPrefix : List Char → List Char → Bool
  | [], _ => true
  | _ :: _, [] => false
  | a :: as, b :: bs => a.toLower == b.toLower && ciPrefix as bs

/-- Try the level alternatives at the current position: the start must not be
preceded by a word character (`\b`), and the character after the match must
not be a word character (`\b`).  Returns the matched slice of the input. -/
def matchLevelAt (l : List Char) : Option (List Char) :=
  levelAlternatives.findSome? fun alt =>
    let a := alt.data
    if ciPrefix a l then
      match (l.drop a.length).head? with
      | some c => if isWordChar c then none else some (l.take a.length)
      | none => some (l.take a.length)
    else none

/-- Leftmost `\b`-anchored level match: scan positions left to right, carrying
whether the previous character is a word character. -/
def searchLevelAux (prevIsWord : Bool) : List Char → Option (List Char)
  | [] => none
  | c :: t =>
    match (if prevIsWord then none else matchLevelAt (c :: t)) with
    | some m => some m
    | none => searchLevelAux (isWordChar c) t

def searchLevel (l : List Char) : Option (List Char) := searchLevelAux false l

/-- A parsed log entry: the dict built per `(timestamp, line)` pair in
`_parse_log_entries`.  `parsed`, `level` and `message` model dict keys that
are only present when the corresponding assignment ran. -/
structure LogEntryE where
  timestamp_ns : Int
  log : String
  labels : List (String × String)
  parsed : Option JVal := none
  level : Option JVal := none
  message : Option JVal := none

/-- The per-line body of `_parse_log_entries`: the braces guard, the
`json.loads` attempt whose failure (and only whose failure) triggers the
plain-text `except` path, and the regex level fallback.  When the guard is
false nothing in the `try` raises, so the `except` body never runs and the
entry keeps no `level`/`message` keys. -/
def parse_log_line (timestamp_ns : Int) (log_line : String)
    (labels : List (String × String)) : LogEntryE :=
  let entry0 : LogEntryE := { timestamp_ns := timestamp_ns, log := log_line, labels := labels }
  if strStartsWith (pyStrip log_line) "\x7b" && strEndsWith (pyStrip log_line) "\x7d" then
    match jsonLoads log_line with
    | some parsed_log =>
      let fields := objFields parsed_log
      { entry0 with
        parsed := some parsed_log,
        level := some ((pyGet fields "level").getD (.str "unknown")),
        message := some ((pyGet fields "message").getD ((pyGet fields "msg").getD (.str log_line))) }
    | none =>
      { entry0 with
        message := some (.str log_line),
        level := some (.str (match searchLevel log_line.data with
          | some m => strLower (String.mk m)
          | none => "unknown")) }
  else entry0

/-- Python `int(str)` on a decimal literal with optional sign and surrounding
whitespace; `none` models the `ValueError` raise. -/
def pyInt? (s : String) : Option Int :=
  let t := (pyStrip s).data
  let (sign, rest) : Int × List Char :=
    match t with
    | '-' :: r => (-1, r)
    | '+' :: r => (1, r)
    | r => (1, r)
  if !rest.isEmpty && rest.all Char.isDigit then some (sign * digitsToNat rest) else none

/-- One Loki stream of the `data.result` payload: its label set and its
`(timestamp, line)` value rows (rows are lists; rows shorter than 2 are
skipped by the `len(value) >= 2` guard). -/
structure LokiStream where
  stream : List (String × String)
  values : List (List String)

/-- The `data` object of a Loki response; `result = none` models a missing
`"result"` key, `resultType` the optional `"resultType"` key. -/
structure ResultData where
  result : Option (List LokiStream)
  resultType : Option String

def parseValues (labels : List (String × String)) :
    List (List String) → Except String (List LogEntryE)
  | [] => .ok []
  | v :: vs =>
    match v with
    | t :: line :: _ =>
      match pyInt? t with
      | some ns =>
        match parseValues labels vs with
        | .ok rest => .ok (parse_log_line ns line labels :: rest)
        | .error e => .error e
      | none => .error ("invalid literal for int() with base 10: " ++ t)
    | _ => parseValues labels vs

/-- `LokiQueryTool._parse_log_entries`; the `.error` case models the
`ValueError` that `int(value[0])` raises on a non-numeric timestamp and that
propagates out of the function. -/
def parse_log_entries (result_data : ResultData) : Except String (List LogEntryE) :=
  match result_data.result with
  | none => .ok []
  | some streams =>
    streams.foldl
      (fun acc st =>
        match acc with
        | .error e => .error e
        | .ok sofar =>
          match parseValues st.stream st.values with
          | .ok es => .ok (sofar ++ es)
          | .error e => .error e)
      (.ok [])

/- ### Response models (`models.py`) and `query_logs` (`query_tool.py`) -/

/-- `.value` of the Python enum members. -/
def LokiErrorType.value : LokiErrorType → String
  | .connection_refused => "connection_refused"
  | .dns_resolution_failed => "dns_resolution_failed"
  | .http_error => "http_error"
  | .timeout => "timeout"
  | .authentication_failed => "authentication_failed"
  | .service_unavailable => "service_unavailable"
  | .query_syntax_error => "query_syntax_error"
  | .rate_limited => "rate_limited"
  | .unknown => "unknown"

/-- The heterogeneous values a `LogQueryResponse.to_dict` dictionary holds. -/
inductive RVal where
  | bool (b : Bool)
  | str (s : String)
  | int (n : Int)
  | entries (logs : List LogEntryE)

/-- The `LogQueryResponse` dataclass from `models.py`, field order preserved. -/
structure LogQueryResponse where
  success : Bool
  query : String
  logs : Option (List LogEntryE) := none
  total : Option Int := none
  time_range : Option String := none
  api_endpoint : Option String := none
  result_type : Option String := none
  error : Option String := none
  loki_url : Option String := none
  error_type : Option String := none

/-- `LogQueryResponse.to_dict`: the `asdict` dictionary with `None`-valued
fields removed, in dataclass field order. -/
def LogQueryResponse.to_dict (r : LogQueryResponse) : List (String × RVal) :=
  [("success", RVal.bool r.success), ("query", RVal.str r.query)]
  ++ (match r.logs with | some l => [("logs", RVal.entries l)] | none => [])
  ++ (match r.total with | some n => [("total", RVal.int n)] | none => [])
  ++ (match r.time_range with | some s => [("time_range", RVal.str s)] | none => [])
  ++ (match r.api_endpoint with | some s => [("api_endpoint", RVal.str s)] | none => [])
  ++ (match r.result_type with | some s => [("result_type", RVal.str s)] | none => [])
  ++ (match r.error with | some s => [("error", RVal.str s)] | none => [])
  ++ (match r.loki_url with | some s => [("loki_url", RVal.str s)] | none => [])
  ++ (match r.error_type with | some s => [("error_type", RVal.str s)] | none => [])

/-- The Loki response body as read by `query_logs`: `loki_data.get("status")`,
`loki_data.get("error", ...)` and `loki_data.get("data", {})`. -/
structure LokiBody where
  status : Option String
  error : Option String
  data : Option ResultData

/-- The observable outcome of the single HTTP round trip inside `query_logs`:
either a response with a status code, a body (`Except.error m` models
`response.json()` raising with message `m`) and the raw text, or an exception
raised anywhere inside the `try` block with `str(e) = msg`. -/
inductive HttpOutcome where
  | response (status_code : Nat) (body : Except String LokiBody) (text : String)
  | raised (msg : String)

/-- The `except` path of `query_logs`: classify the message, build the
user-friendly text, and return a failure envelope. -/
def queryLogsExceptPath (msg logql loki_url : String) : List (String × RVal) :=
  let error_type := classify_error msg
  let user_friendly_msg := get_user_friendly_message error_type loki_url
  LogQueryResponse.to_dict
    { success := false, query := logql,
      error := some user_friendly_msg,
      loki_url := some loki_url,
      error_type := some error_type.value }

/-- `LokiQueryTool.query_logs`, as a function of the request's observable
outcome and of the inputs that shape the returned dictionary. -/
def query_logs (outcome : HttpOutcome) (logql start_time end_time loki_url : String) :
    List (String × RVal) :=
  let tenant := "application"
  let query_url := loki_url ++ "/api/logs/v1/" ++ tenant ++ "/loki/api/v1/query_range"
  match outcome with
  | .raised msg => queryLogsExceptPath msg logql loki_url
  | .response status_code body text =>
    if status_code = 200 then
      match body with
      | .error msg => queryLogsExceptPath msg logql loki_url
      | .ok loki_data =>
        if loki_data.status = some "success" then
          let result_data := loki_data.data.getD { result := none, resultType := none }
          match parse_log_entries result_data with
          | .ok log_entries =>
            LogQueryResponse.to_dict
              { success := true, query := logql,
                logs := some log_entries,
                total := some (log_entries.length : Int),
                time_range := some (start_time ++ " to " ++ end_time),
                api_endpoint := some query_url,
                result_type := some (result_data.resultType.getD "streams") }
          | .error msg => queryLogsExceptPath msg logql loki_url
        else
          let error_msg := loki_data.error.getD "Unknown Loki error"
          LogQueryResponse.to_dict
            { success := false, query := logql,
              error := some ("Loki query failed: " ++ error_msg),
              api_endpoint := some query_url }
    else
      LogQueryResponse.to_dict
        { success := false, query := logql,
          error := some ("Loki API query failed: HTTP " ++ toString status_code ++ " - " ++ text),
          api_endpoint := some query_url }

/- ### Derived definitions used by the planner theorems -/

def headChar (s : String) : Option Char := s.data.head?

/-- Heads of all branch-produced queries: a brace (selector-based queries) or
`s` (the `sum by` aggregation queries). -/
def goodHead (x : String) : Prop := headChar x = some '\x7b' ∨ headChar x = some 's'

/-- The disjunction of the planner's nine topic-branch conditions: the claim's
"planner's topic keywords". -/
def topicHit (q : String) : Bool :=
  hasAny q errorWords || hasAny q warningWords || hasAny q perfWords || hasAny q httpWords
  || hasAny q authWords || hasAny q dbWords || hasAny q lifecycleWords
  || hasAny q serviceWords || hasAny q volumeWords

/- ### Generic lemmas about the substring test -/

theorem isPrefixOf_append (l r : List Char) : l.isPrefixOf (l ++ r) = true := by
  induction l with
  | nil => simp [List.isPrefixOf]
  | cons c cs ih => simp [List.isPrefixOf, ih]

theorem containsList_nil (l : List Char) : containsList [] l = true := by
  induction l with
  | nil => rfl
  | cons c cs ih => simp [containsList, List.isPrefixOf, ih]

theorem containsList_append_self (pat a b : List Char) :
    containsList pat (a ++ (pat ++ b)) = true := by
  induction a with
  | nil =>
    rw [List.nil_append]
    cases pat with
    | nil => exact containsList_nil b
    | cons p ps =>
      rw [List.cons_append]
      have h : containsList (p :: ps) (p :: (ps ++ b))
          = ((p :: ps).isPrefixOf (p :: (ps ++ b)) || containsList (p :: ps) (ps ++ b)) := rfl
      rw [h, ← List.cons_append, isPrefixOf_append, Bool.true_or]
  | cons c cs ih =>
    rw [List.cons_append]
    have h : containsList pat (c :: (cs ++ (pat ++ b)))
        = (pat.isPrefixOf (c :: (cs ++ (pat ++ b))) || containsList pat (cs ++ (pat ++ b))) := rfl
    rw [h, ih, Bool.or_true]

theorem containsList_of_segment {pat l : List Char} (h : pat <:+: l) :
    containsList pat l = true := by
  obtain ⟨s, t, rfl⟩ := h
  rw [List.append_assoc]
  exact containsList_append_self pat s t

theorem strContains_append (a pat b : String) :
    strContains (a ++ pat ++ b) pat = true := by
  show containsList pat.data (a ++ pat ++ b).data = true
  have : (a ++ pat ++ b).data = a.data ++ (pat.data ++ b.data) := by
    simp [String.data_append, List.append_assoc]
  rw [this]
  exact containsList_append_self pat.data a.data b.data

/- ### Helper lemmas for the planner theorems -/

theorem headChar_append {s : String} (t : String) {c : Char} (h : headChar s = some c) :
    headChar (s ++ t) = some c := by
  unfold headChar at h ⊢
  rw [String.data_append]
  cases hs : s.data with
  | nil => rw [hs] at h; simp at h
  | cons a as =>
    rw [hs] at h
    rw [List.cons_append]
    simpa using h

theorem isBlank_false_of_headChar {s : String} {c : Char} (h : headChar s = some c)
    (hc : c.isWhitespace = false) : isBlank s = false := by
  unfold headChar at h
  unfold isBlank
  cases hs : s.data with
  | nil => rw [hs] at h; simp at h
  | cons a as =>
    rw [hs] at h
    obtain rfl : a = c := Option.some.inj h
    simp [hc]

theorem headChar_baseSelector (ns : Option String) (fleet : Bool) :
    headChar (baseSelector ns fleet) = some '\x7b' := by
  unfold baseSelector
  split
  · rfl
  · exact headChar_append _ (headChar_append _ rfl)

theorem mem_ite_singleton {c : Prop} [Decidable c] {x y : String}
    (h : x ∈ (if c then [y] else [])) : x = y := by
  split at h
  · simpa using h
  · simp at h

theorem forall_mem_ite_singleton {c : Prop} [Decidable c] {y : String} {P : String → Prop}
    (h : P y) : ∀ x ∈ (if c then [y] else []), P x :=
  fun _ hx => (mem_ite_singleton hx) ▸ h

theorem forall_mem_single {P : String → Prop} {a : String} (ha : P a) :
    ∀ x ∈ [a], P x := by
  intro x hx
  rw [List.mem_singleton.mp hx]
  exact ha

theorem forall_mem_pair {P : String → Prop} {a b : String} (ha : P a) (hb : P b) :
    ∀ x ∈ [a, b], P x := by
  intro x hx
  rcases List.mem_cons.mp hx with rfl | hx
  · exact ha
  · exact forall_mem_single hb x hx

theorem forall_mem_triple {P : String → Prop} {a b c : String}
    (ha : P a) (hb : P b) (hc : P c) : ∀ x ∈ [a, b, c], P x := by
  intro x hx
  rcases List.mem_cons.mp hx with rfl | hx
  · exact ha
  · exact forall_mem_pair hb hc x hx

theorem branchQueries_heads (q base nsF rInt : String)
    (hbase : headChar base = some '\x7b') :
    ∀ x ∈ branchQueries q base nsF rInt, goodHead x := by
  have hB : ∀ (t : String), goodHead (base ++ t) := fun t => Or.inl (headChar_append t hbase)
  have hB0 : goodHead base := Or.inl hbase
  have hSum : ∀ (t : String), goodHead ("sum by (namespace) (count_over_time(" ++ base ++ "[" ++ t ++ "]))")
      ∧ goodHead ("sum by (level) (count_over_time(" ++ base ++ "[" ++ t ++ "]))")
      ∧ goodHead ("sum by (service_name) (count_over_time(" ++ base ++ "[" ++ t ++ "]))") :=
    fun t => ⟨Or.inr (headChar_append _ (headChar_append _ (headChar_append _ rfl))),
      Or.inr (headChar_append _ (headChar_append _ (headChar_append _ rfl))),
      Or.inr (headChar_append _ (headChar_append _ (headChar_append _ rfl)))⟩
  unfold branchQueries
  by_cases h1 : hasAny q errorWords = true
  · rw [if_pos h1]
    refine List.forall_mem_append.mpr ⟨List.forall_mem_append.mpr
      ⟨List.forall_mem_append.mpr ⟨List.forall_mem_append.mpr
        ⟨forall_mem_triple (hB _) (hB _) (hB _), forall_mem_ite_singleton (hB _)⟩,
        forall_mem_ite_singleton (hB _)⟩, forall_mem_ite_singleton (hB _)⟩,
      forall_mem_ite_singleton (hB _)⟩
  rw [if_neg h1]
  by_cases h2 : hasAny q warningWords = true
  · rw [if_pos h2]
    exact forall_mem_triple (hB _) (hB _) (hB _)
  rw [if_neg h2]
  by_cases h3 : hasAny q perfWords = true
  · rw [if_pos h3]
    exact forall_mem_triple (hB _) (hB _) (hB _)
  rw [if_neg h3]
  by_cases h4 : hasAny q httpWords = true
  · rw [if_pos h4]
    by_cases h4a : (strContains q "500" || strContains q "server error") = true
    · rw [if_pos h4a]
      exact forall_mem_single (hB _)
    rw [if_neg h4a]
    by_cases h4b : (strContains q "400" || strContains q "client error") = true
    · rw [if_pos h4b]
      exact forall_mem_single (hB _)
    · rw [if_neg h4b]
      exact forall_mem_triple (hB _) (hB _) (hB _)
  rw [if_neg h4]
  by_cases h5 : hasAny q authWords = true
  · rw [if_pos h5]
    exact forall_mem_triple (hB _) (hB _) (hB _)
  rw [if_neg h5]
  by_cases h6 : hasAny q dbWords = true
  · rw [if_pos h6]
    exact forall_mem_pair (hB _) (hB _)
  rw [if_neg h6]
  by_cases h7 : hasAny q lifecycleWords = true
  · rw [if_pos h7]
    exact forall_mem_triple (hB _) (hB _) (hB _)
  rw [if_neg h7]
  by_cases h8 : hasAny q serviceWords = true
  · rw [if_pos h8]
    cases hsvc : extractServiceName q.data with
    | some w =>
      simp only [hsvc]
      exact forall_mem_triple
        (Or.inl (headChar_append _ (headChar_append _ (headChar_append _
          (headChar_append _ rfl)))))
        (Or.inl (headChar_append _ (headChar_append _ (headChar_append _
          (headChar_append _ rfl)))))
        (Or.inl (headChar_append _ (headChar_append _ (headChar_append _
          (headChar_append _ rfl)))))
    | none =>
      simp only [hsvc]
      exact forall_mem_single hB0
  rw [if_neg h8]
  by_cases h9 : hasAny q volumeWords = true
  · rw [if_pos h9]
    exact forall_mem_triple (hSum rInt).1 (hSum rInt).2.1 (hSum rInt).2.2
  · rw [if_neg h9]
    exact forall_mem_triple hB0 (hB _) (hB _)

theorem dedupFirstAux_sub {x : String} :
    ∀ (seen l : List String), x ∈ dedupFirstAux seen l → x ∈ l := by
  intro seen l
  induction l generalizing seen with
  | nil => intro h; simpa [dedupFirstAux] using h
  | cons q qs ih =>
    intro h
    unfold dedupFirstAux at h
    split at h
    · exact List.mem_cons_of_mem _ (ih _ h)
    · rcases List.mem_cons.mp h with rfl | h2
      · exact List.mem_cons_self _ _
      · exact List.mem_cons_of_mem _ (ih _ h2)

theorem dedupFirstAux_append_singleton {r : String} :
    ∀ (seen l : List String), r ∉ seen → r ∉ l →
      dedupFirstAux seen (l ++ [r]) = dedupFirstAux seen l ++ [r] := by
  intro seen l
  induction l generalizing seen with
  | nil =>
    intro hs _
    simp [dedupFirstAux, hs]
  | cons q qs ih =>
    intro hs hl
    have hrq : r ≠ q := fun e => hl (e ▸ List.mem_cons_self q qs)
    rw [List.cons_append]
    unfold dedupFirstAux
    split
    · exact ih _ hs (fun h => hl (List.mem_cons_of_mem _ h))
    · have hs2 : r ∉ q :: seen := by
        intro h
        rcases List.mem_cons.mp h with e | h2
        · exact hrq e
        · exact hs h2
      rw [ih (q :: seen) hs2 (fun h => hl (List.mem_cons_of_mem _ h)), List.cons_append]

theorem postprocess_append_singleton {l : List String} {r : String}
    (hb : isBlank r = false) (hl : r ∉ l) :
    postprocess (l ++ [r]) = postprocess l ++ [r] := by
  unfold postprocess
  rw [List.filter_append]
  have hf : List.filter (fun q => !isBlank q) [r] = [r] := by simp [hb]
  rw [hf]
  exact dedupFirstAux_append_singleton [] _ (by simp)
    (fun h => hl (List.mem_of_mem_filter h))

theorem mem_postprocess_sub {x : String} {l : List String} (h : x ∈ postprocess l) : x ∈ l :=
  List.mem_of_mem_filter (dedupFirstAux_sub [] _ h)

theorem postprocess_triple {a b c : String} (ha : isBlank a = false) (hb : isBlank b = false)
    (hc : isBlank c = false) (hab : a ≠ b) (hac : a ≠ c) (hbc : b ≠ c) :
    postprocess [a, b, c] = [a, b, c] := by
  unfold postprocess
  rw [show List.filter (fun q => !isBlank q) [a, b, c] = [a, b, c] from by simp [ha, hb, hc]]
  simp [dedupFirstAux, List.mem_cons, List.mem_singleton,
    Ne.symm hab, Ne.symm hac, Ne.symm hbc]

theorem searchTime_exists_suffix {l : List Char} {r : Nat × String}
    (h : searchTime l = some r) : ∃ l', l' <:+ l ∧ matchTimeAt l' = some r := by
  induction l with
  | nil => exact ⟨[], List.suffix_refl [], h⟩
  | cons c t ih =>
    unfold searchTime at h
    cases hm : matchTimeAt (c :: t) with
    | some r2 =>
      rw [hm] at h
      exact ⟨c :: t, List.suffix_refl _, hm.trans h⟩
    | none =>
      rw [hm] at h
      obtain ⟨l', hsuf, hmt⟩ := ih h
      exact ⟨l', hsuf.trans (List.suffix_cons c t), hmt⟩

theorem matchTimeAt_inv {l : List Char} {n : Nat} {u : String}
    (h : matchTimeAt l = some (n, u)) :
    "last".data <+: l
    ∧ (∃ r4, r4 <:+ l ∧ u.data <+: r4)
    ∧ (u = "minute" ∨ u = "hour" ∨ u = "day") := by
  have hsuf : (((l.drop 4).dropWhile Char.isWhitespace).dropWhile Char.isDigit).dropWhile
      Char.isWhitespace <:+ l :=
    (List.dropWhile_suffix _).trans ((List.dropWhile_suffix _).trans
      ((List.dropWhile_suffix _).trans (List.drop_suffix 4 l)))
  simp only [matchTimeAt] at h
  split at h
  case isTrue hpre =>
    split at h
    · exact absurd h (by simp)
    split at h
    · exact absurd h (by simp)
    split at h
    case isTrue hu =>
      injection h with h2
      injection h2 with hn hu2
      subst hu2
      exact ⟨List.isPrefixOf_iff_prefix.mp hpre,
        ⟨_, hsuf, List.isPrefixOf_iff_prefix.mp hu⟩, Or.inl rfl⟩
    split at h
    case isTrue hu =>
      injection h with h2
      injection h2 with hn hu2
      subst hu2
      exact ⟨List.isPrefixOf_iff_prefix.mp hpre,
        ⟨_, hsuf, List.isPrefixOf_iff_prefix.mp hu⟩, Or.inr (Or.inl rfl)⟩
    split at h
    case isTrue hu =>
      injection h with h2
      injection h2 with hn hu2
      subst hu2
      exact ⟨List.isPrefixOf_iff_prefix.mp hpre,
        ⟨_, hsuf, List.isPrefixOf_iff_prefix.mp hu⟩, Or.inr (Or.inr rfl)⟩
    · exact absurd h (by simp)
  case isFalse hpre => exact absurd h (by simp)

theorem searchTime_inv {l : List Char} {n : Nat} {u : String}
    (h : searchTime l = some (n, u)) :
    containsList "last".data l = true
    ∧ containsList u.data l = true
    ∧ (u = "minute" ∨ u = "hour" ∨ u = "day") := by
  obtain ⟨l', hsuf, hmt⟩ := searchTime_exists_suffix h
  obtain ⟨hpre, ⟨r4, hr4, hupre⟩, hu⟩ := matchTimeAt_inv hmt
  exact ⟨containsList_of_segment (hpre.isInfix.trans hsuf.isInfix),
    containsList_of_segment ((hupre.isInfix.trans hr4.isInfix).trans hsuf.isInfix), hu⟩

theorem timeQueries_eq {q base : String} {n : Nat} {u : String}
    (h : searchTime q.data = some (n, u)) :
    timeQueries q base = ["rate(" ++ base ++ "[" ++ durOf n u ++ "])"] := by
  obtain ⟨hlast, hcu, hu⟩ := searchTime_inv h
  have hunits : hasAny q ["minute", "hour", "day"] = true := by
    rcases hu with rfl | rfl | rfl <;> simp [hasAny, strContains, hcu]
  have hcond : (strContains q "last" && hasAny q ["minute", "hour", "day"]) = true := by
    rw [show strContains q "last" = true from hlast, hunits]
    rfl
  unfold timeQueries
  rw [if_pos hcond, h]

/- ### Claim theorems -/

/-- C1: the spec says a brace-free raw line is parsed with the whole line as
`message` and the regex-inferred `level`; the code instead skips the JSON
branch (guard false, so nothing raises) and the `except` fallback never runs,
leaving the entry without `level` and `message` keys.  At the spec's own
example line `"2024 ERROR something failed"` the entry has neither key, even
though the level regex would have matched `ERROR`. -/
theorem C1_parser_fallback_unreachable :
    (parse_log_line 0 "2024 ERROR something failed" []).level = none
    ∧ (parse_log_line 0 "2024 ERROR something failed" []).message = none
    ∧ searchLevel "2024 ERROR something failed".data = some "ERROR".data :=
  ⟨rfl, rfl, rfl⟩

/-- C3 counterexample: for the `QuerySyntaxError` category the user-facing
message does not contain the Loki URL, refuting the claim that every
category's message names the backend endpoint. -/
theorem C3_counterexample :
    strContains
      (get_user_friendly_message .query_syntax_error "http://loki-gateway:8080")
      "http://loki-gateway:8080" = false := by
  decide

/-- C3 amended: for every category except `QuerySyntaxError`, the
user-friendly message contains the Loki URL. -/
theorem C3_amended (c : LokiErrorType) (url : String) (h : c ≠ .query_syntax_error) :
    strContains (get_user_friendly_message c url) url = true := by
  cases c with
  | query_syntax_error => exact absurd rfl h
  | unknown =>
    have h2 := strContains_append "Unexpected error accessing Loki at " url ""
    rwa [String.append_empty] at h2
  | connection_refused => exact strContains_append _ url _
  | dns_resolution_failed => exact strContains_append _ url _
  | http_error => exact strContains_append _ url _
  | timeout => exact strContains_append _ url _
  | authentication_failed => exact strContains_append _ url _
  | service_unavailable => exact strContains_append _ url _
  | rate_limited => exact strContains_append _ url _

/-- C3 witness. -/
theorem C3_witness :
    strContains (get_user_friendly_message .timeout "http://loki:3100") "http://loki:3100"
      = true :=
  C3_amended .timeout "http://loki:3100" (by decide)

/-- C4 counterexample: an entry with the known structured level `info` whose
message contains the word `failed` is counted as an error by
`is_error_log` — the keyword check is not restricted to unknown levels, so
the claim that a known level decides severity alone is false. -/
theorem C4_counterexample :
    is_error_log (some "info") (some "operation failed") none = true := by
  decide

/-- C4 amended: the message-keyword error detection applies to every entry
whose level check fails, whatever the structured level is; any entry whose
message contains one of the error keywords is counted as an error even when
its level is known and non-error. -/
theorem C4_amended (level log : Option String) (message : String)
    (h : (["error", "failed", "failure", "exception", "panic",
           "fatal", "critical", "crashed", "abort"].any
            (fun pattern => strContains (strLower message) pattern)) = true) :
    is_error_log level (some message) log = true := by
  unfold is_error_log
  split
  · rfl
  · simpa using h

/-- C4 witness. -/
theorem C4_witness :
    is_error_log (some "info") (some "request failed with 502") none = true :=
  C4_amended (some "info") none "request failed with 502" (by decide)

/-- C7: `classify_error` is order-sensitive with table order as tie-break:
any message containing both `connection refused` and `timeout`
(case-insensitively) classifies as `ConnectionRefused`, because the
`CONNECTION_REFUSED` patterns are the first table entry. -/
theorem C7_classify_order (msg : String)
    (h1 : strContains (strLower msg) "connection refused" = true)
    (h2 : strContains (strLower msg) "timeout" = true) :
    classify_error msg = .connection_refused := by
  unfold classify_error ERROR_PATTERNS
  rw [List.find?_cons_of_pos]
  simp [h1]

/-- C7 witness. -/
theorem C7_witness :
    classify_error "Connection refused after request timeout" = .connection_refused :=
  C7_classify_order "Connection refused after request timeout" (by decide) (by decide)

/-- C5 counterexample: a brace-wrapped line that fails JSON parsing and whose
regex level match is `FATAL` keeps level `fatal` — it is not normalized to
`error` as the claim states. -/
theorem C5_counterexample :
    (parse_log_line 0 "\x7bFATAL: disk failure\x7d" []).level = some (.str "fatal") := by
  rfl

/-- C5 amended: no FATAL/CRITICAL normalization happens in the parser: on the
plain-text fallback path the entry's level is exactly the lower-cased matched
token (`fatal` stays `fatal`, `critical` stays `critical`); fatal/critical
are instead treated as error severity downstream, by
`LogPatternDetector.is_error_log`. -/
theorem C5_amended (ns : Int) (line : String) (labels : List (String × String))
    (m : List Char)
    (h1 : strStartsWith (pyStrip line) "\x7b" = true)
    (h2 : strEndsWith (pyStrip line) "\x7d" = true)
    (h3 : jsonLoads line = none)
    (h4 : searchLevel line.data = some m) :
    (parse_log_line ns line labels).level = some (.str (strLower (String.mk m)))
    ∧ (strLower (String.mk m) = "fatal" ∨ strLower (String.mk m) = "critical" →
        is_error_log (some (strLower (String.mk m))) none none = true) := by
  constructor
  · unfold parse_log_line
    rw [h1, h2]
    simp only [Bool.and_self, if_true, h3, h4]
  · rintro (h | h) <;> rw [h] <;> decide

/-- C5 witness. -/
theorem C5_witness :
    (parse_log_line 0 "\x7bCRITICAL overload\x7d" []).level = some (.str "critical")
    ∧ is_error_log (some "critical") none none = true := by
  have h := C5_amended 0 "\x7bCRITICAL overload\x7d" [] "CRITICAL".data rfl rfl rfl rfl
  exact ⟨h.1, h.2 (Or.inr rfl)⟩

/-- C2 counterexample: a 200 response whose body reports a backend failure
(`status` ≠ `"success"`) yields an envelope whose `error` field echoes the raw
backend message (prefixed with `Loki query failed: `), not the classified
user-friendly message — the raw text appears verbatim as a substring. -/
theorem C2_counterexample :
    query_logs
        (.response 200
          (.ok { status := some "error", error := some "parse error: unexpected token",
                 data := none }) "")
        "up" "s" "e" "http://loki"
      = [("success", RVal.bool false), ("query", RVal.str "up"),
         ("api_endpoint", RVal.str "http://loki/api/logs/v1/application/loki/api/v1/query_range"),
         ("error", RVal.str "Loki query failed: parse error: unexpected token")]
    ∧ "Loki query failed: parse error: unexpected token"
        ≠ get_user_friendly_message (classify_error "parse error: unexpected token") "http://loki"
    ∧ strContains "Loki query failed: parse error: unexpected token" "parse error: unexpected token"
        = true := by
  refine ⟨rfl, ?_, rfl⟩
  decide

/-- C2 amended: every failing `query_logs` call returns `success=false`, but
only the transport-exception path carries the classified user-friendly
message; a backend-reported failure inside a 200 response echoes the raw
backend error as `Loki query failed: <raw>`, and a non-2xx response echoes
`Loki API query failed: HTTP <code> - <body text>`. -/
theorem C2_amended (logql st en url text msg : String) (code : Nat) (body : LokiBody) :
    ((query_logs (.raised msg) logql st en url).head? = some ("success", RVal.bool false)
      ∧ ("error", RVal.str (get_user_friendly_message (classify_error msg) url))
          ∈ query_logs (.raised msg) logql st en url)
    ∧ (code ≠ 200 →
        (query_logs (.response code (.ok body) text) logql st en url).head?
            = some ("success", RVal.bool false)
        ∧ ("error", RVal.str ("Loki API query failed: HTTP " ++ toString code ++ " - " ++ text))
            ∈ query_logs (.response code (.ok body) text) logql st en url)
    ∧ (body.status ≠ some "success" →
        (query_logs (.response 200 (.ok body) text) logql st en url).head?
            = some ("success", RVal.bool false)
        ∧ ("error", RVal.str ("Loki query failed: " ++ body.error.getD "Unknown Loki error"))
            ∈ query_logs (.response 200 (.ok body) text) logql st en url) := by
  refine ⟨⟨rfl, ?_⟩, fun h => ?_, fun h => ?_⟩
  · simp [query_logs, queryLogsExceptPath, LogQueryResponse.to_dict]
  · constructor
    · dsimp only [query_logs]
      rw [if_neg h]
      rfl
    · dsimp only [query_logs]
      rw [if_neg h]
      simp [LogQueryResponse.to_dict]
  · constructor
    · dsimp only [query_logs]
      rw [if_pos rfl, if_neg h]
      rfl
    · dsimp only [query_logs]
      rw [if_pos rfl, if_neg h]
      simp [LogQueryResponse.to_dict]

/-- C2 witness. -/
theorem C2_witness :
    (query_logs (.response 503 (.ok { status := none, error := none, data := none }) "overloaded")
        "up" "s" "e" "http://loki").head? = some ("success", RVal.bool false)
    ∧ ("error", RVal.str ("Loki API query failed: HTTP " ++ toString 503 ++ " - " ++ "overloaded"))
        ∈ query_logs (.response 503 (.ok { status := none, error := none, data := none })
            "overloaded") "up" "s" "e" "http://loki" :=
  (C2_amended "up" "s" "e" "http://loki" "overloaded" "m" 503
    { status := none, error := none, data := none }).2.1 (by decide)

/-- C10: `to_dict` keeps exactly the non-`None` optional fields (`error`,
`logs`, `total` keys are present iff the fields are set), and consequently a
successful `query_logs` dictionary never carries an `error` key while a
failed one never carries `logs` or `total` keys. -/
theorem C10_to_dict_optional_keys :
    (∀ r : LogQueryResponse,
        ("error" ∈ r.to_dict.map Prod.fst ↔ r.error ≠ none)
      ∧ ("logs" ∈ r.to_dict.map Prod.fst ↔ r.logs ≠ none)
      ∧ ("total" ∈ r.to_dict.map Prod.fst ↔ r.total ≠ none))
    ∧ (∀ (outcome : HttpOutcome) (logql st en url : String),
        ((query_logs outcome logql st en url).head? = some ("success", RVal.bool true) →
          "error" ∉ (query_logs outcome logql st en url).map Prod.fst)
      ∧ ((query_logs outcome logql st en url).head? = some ("success", RVal.bool false) →
          "logs" ∉ (query_logs outcome logql st en url).map Prod.fst
          ∧ "total" ∉ (query_logs outcome logql st en url).map Prod.fst)) := by
  constructor
  · rintro ⟨suc, q, logs, total, tr, ae, rt, err, lu, et⟩
    cases logs <;> cases total <;> cases tr <;> cases ae <;> cases rt <;> cases err
      <;> cases lu <;> cases et <;> simp [LogQueryResponse.to_dict]
  · intro outcome logql st en url
    cases outcome with
    | raised msg =>
      constructor
      · intro h
        simp [query_logs, queryLogsExceptPath, LogQueryResponse.to_dict] at h
      · intro h
        simp [query_logs, queryLogsExceptPath, LogQueryResponse.to_dict]
    | response code body text =>
      by_cases hc : code = 200
      · subst hc
        cases body with
        | error m =>
          constructor
          · intro h
            simp [query_logs, queryLogsExceptPath, LogQueryResponse.to_dict] at h
          · intro h
            simp [query_logs, queryLogsExceptPath, LogQueryResponse.to_dict]
        | ok loki_data =>
          by_cases hs : loki_data.status = some "success"
          · cases hp : parse_log_entries
                (loki_data.data.getD { result := none, resultType := none }) with
            | ok entries =>
              constructor
              · intro h
                simp [query_logs, hs, hp, LogQueryResponse.to_dict]
              · intro h
                simp [query_logs, hs, hp, LogQueryResponse.to_dict] at h
            | error m =>
              constructor
              · intro h
                simp [query_logs, hs, hp, queryLogsExceptPath,
                      LogQueryResponse.to_dict] at h
              · intro h
                simp [query_logs, hs, hp, queryLogsExceptPath, LogQueryResponse.to_dict]
          · constructor
            · intro h
              simp [query_logs, hs, LogQueryResponse.to_dict] at h
            · intro h
              simp [query_logs, hs, LogQueryResponse.to_dict]
      · constructor
        · intro h
          simp [query_logs, hc, LogQueryResponse.to_dict] at h
        · intro h
          simp [query_logs, hc, LogQueryResponse.to_dict]

/-- C10 witness. -/
theorem C10_witness :
    "logs" ∉ (query_logs (.raised "boom") "q" "s" "e" "u").map Prod.fst
    ∧ "total" ∉ (query_logs (.raised "boom") "q" "s" "e" "u").map Prod.fst :=
  (C10_to_dict_optional_keys.2 (.raised "boom") "q" "s" "e" "u").2 rfl

/-- C6 counterexample: the question `"show logs from the last 5 minutes"`
contains none of the planner's topic keywords, yet the planner returns four
queries, not the 3-element default list: the always-evaluated time-phrase
step appends a rate query. -/
theorem C6_counterexample :
    generate_logql_from_question "show logs from the last 5 minutes" (some "demo") 0 3600 false
      = ["\x7bnamespace=\"demo\"\x7d",
         "\x7bnamespace=\"demo\"\x7d | json | level != \"debug\"",
         "\x7bnamespace=\"demo\"\x7d | logfmt | level != \"debug\"",
         "rate(\x7bnamespace=\"demo\"\x7d[5m])"]
    ∧ topicHit (strLower "show logs from the last 5 minutes") = false :=
  ⟨rfl, rfl⟩

/-- C6 amended: a question with none of the topic keywords that also does not
match the `last N minute/hour/day` time phrase yields exactly the 3-element
default list — base selector, json debug-excluding variant, logfmt
debug-excluding variant, in that order; when the time phrase does match, a
fourth rate query is appended (see the C8 theorem). -/
theorem C6_default_queries (question : String) (ns : Option String) (st en : Int)
    (fleet : Bool)
    (h1 : topicHit (strLower question) = false)
    (h2 : searchTime (strLower question).data = none) :
    generate_logql_from_question question ns st en fleet
      = [baseSelector ns fleet,
         baseSelector ns fleet ++ " | json | level != \"debug\"",
         baseSelector ns fleet ++ " | logfmt | level != \"debug\""] := by
  unfold topicHit at h1
  simp only [Bool.or_eq_false_iff] at h1
  obtain ⟨⟨⟨⟨⟨⟨⟨⟨he, hw⟩, hp⟩, hh⟩, ha⟩, hd⟩, hl⟩, hs⟩, hv⟩ := h1
  have hbase := headChar_baseSelector ns fleet
  have hbr : branchQueries (strLower question) (baseSelector ns fleet)
      (namespaceFilter ns fleet) (rateInterval st en)
      = [baseSelector ns fleet,
         baseSelector ns fleet ++ " | json | level != \"debug\"",
         baseSelector ns fleet ++ " | logfmt | level != \"debug\""] := by
    unfold branchQueries
    rw [if_neg (by rw [he]; exact Bool.false_ne_true),
        if_neg (by rw [hw]; exact Bool.false_ne_true),
        if_neg (by rw [hp]; exact Bool.false_ne_true),
        if_neg (by rw [hh]; exact Bool.false_ne_true),
        if_neg (by rw [ha]; exact Bool.false_ne_true),
        if_neg (by rw [hd]; exact Bool.false_ne_true),
        if_neg (by rw [hl]; exact Bool.false_ne_true),
        if_neg (by rw [hs]; exact Bool.false_ne_true),
        if_neg (by rw [hv]; exact Bool.false_ne_true)]
  have htq : timeQueries (strLower question) (baseSelector ns fleet) = [] := by
    unfold timeQueries
    split
    · rw [h2]
    · rfl
  have hblank1 : isBlank (baseSelector ns fleet) = false :=
    isBlank_false_of_headChar hbase (by decide)
  have hblank2 : isBlank (baseSelector ns fleet ++ " | json | level != \"debug\"") = false :=
    isBlank_false_of_headChar (headChar_append _ hbase) (by decide)
  have hblank3 : isBlank (baseSelector ns fleet ++ " | logfmt | level != \"debug\"") = false :=
    isBlank_false_of_headChar (headChar_append _ hbase) (by decide)
  have hab : baseSelector ns fleet ≠ baseSelector ns fleet ++ " | json | level != \"debug\"" := by
    intro e
    have h3 := congrArg (fun x : String => x.data.length) e
    simp only [String.data_append, List.length_append] at h3
    rw [show (" | json | level != \"debug\"" : String).data.length = 26 from rfl] at h3
    omega
  have hac : baseSelector ns fleet ≠ baseSelector ns fleet ++ " | logfmt | level != \"debug\"" := by
    intro e
    have h3 := congrArg (fun x : String => x.data.length) e
    simp only [String.data_append, List.length_append] at h3
    rw [show (" | logfmt | level != \"debug\"" : String).data.length = 28 from rfl] at h3
    omega
  have hbc : baseSelector ns fleet ++ " | json | level != \"debug\""
      ≠ baseSelector ns fleet ++ " | logfmt | level != \"debug\"" := by
    intro e
    have h3 : (baseSelector ns fleet).data ++ (" | json | level != \"debug\"" : String).data
        = (baseSelector ns fleet).data ++ (" | logfmt | level != \"debug\"" : String).data := by
      have h5 := congrArg String.data e
      simpa [String.data_append] using h5
    exact absurd (List.append_cancel_left h3) (by decide)
  simp only [generate_logql_from_question]
  rw [hbr, htq, List.append_nil]
  exact postprocess_triple hblank1 hblank2 hblank3 hab hac hbc

/-- C6 witness. -/
theorem C6_witness :
    generate_logql_from_question "hello world" (some "demo") 0 3600 false
      = [baseSelector (some "demo") false,
         baseSelector (some "demo") false ++ " | json | level != \"debug\"",
         baseSelector (some "demo") false ++ " | logfmt | level != \"debug\""] :=
  C6_default_queries "hello world" (some "demo") 0 3600 false rfl rfl

/-- C8: whenever the lower-cased question matches
`last\s+(\d+)\s*(minute|hour|day)`, the planner's output is the
post-processed branch output with exactly one rate-style query appended at
the end, over the duration `{N}m`, `{N}h` or `{N*24}h` according to the
captured unit, whatever topic branch fired. -/
theorem C8_time_phrase (question : String) (ns : Option String) (st en : Int)
    (fleet : Bool) (n : Nat) (u : String)
    (h : searchTime (strLower question).data = some (n, u)) :
    generate_logql_from_question question ns st en fleet
      = postprocess (branchQueries (strLower question) (baseSelector ns fleet)
          (namespaceFilter ns fleet) (rateInterval st en))
        ++ ["rate(" ++ baseSelector ns fleet ++ "[" ++ durOf n u ++ "])"]
    ∧ ("rate(" ++ baseSelector ns fleet ++ "[" ++ durOf n u ++ "])")
        ∉ postprocess (branchQueries (strLower question) (baseSelector ns fleet)
            (namespaceFilter ns fleet) (rateInterval st en))
    ∧ durOf n u = (if u = "minute" then toString n ++ "m"
        else if u = "hour" then toString n ++ "h" else toString (n * 24) ++ "h") := by
  have hbase := headChar_baseSelector ns fleet
  have hrate : headChar ("rate(" ++ baseSelector ns fleet ++ "[" ++ durOf n u ++ "])")
      = some 'r' :=
    headChar_append _ (headChar_append _ (headChar_append _ (headChar_append _ rfl)))
  have hnotmem : ("rate(" ++ baseSelector ns fleet ++ "[" ++ durOf n u ++ "])")
      ∉ branchQueries (strLower question) (baseSelector ns fleet)
          (namespaceFilter ns fleet) (rateInterval st en) := by
    intro hmem
    rcases branchQueries_heads _ _ _ _ hbase _ hmem with hh | hh <;>
      rw [hrate] at hh <;> exact absurd (Option.some.inj hh) (by decide)
  have hblank : isBlank ("rate(" ++ baseSelector ns fleet ++ "[" ++ durOf n u ++ "])")
      = false := isBlank_false_of_headChar hrate (by decide)
  refine ⟨?_, fun hmem => hnotmem (mem_postprocess_sub hmem), rfl⟩
  simp only [generate_logql_from_question]
  rw [timeQueries_eq h]
  exact postprocess_append_singleton hblank hnotmem

/-- C8 witness. -/
theorem C8_witness :
    generate_logql_from_question "errors in the last 15 minutes" (some "demo") 0 3600 false
      = postprocess (branchQueries (strLower "errors in the last 15 minutes")
          (baseSelector (some "demo") false) (namespaceFilter (some "demo") false)
          (rateInterval 0 3600))
        ++ ["rate(" ++ baseSelector (some "demo") false ++ "[" ++ durOf 15 "minute" ++ "])"] :=
  (C8_time_phrase "errors in the last 15 minutes" (some "demo") 0 3600 false 15 "minute" rfl).1

end Loki
